import Mathlib

/-!
Verification development for the ziplime backtesting core.

Shallow embedding of the parts of the source that the verified properties
touch.  Monetary quantities and prices (Python floats) are modelled as exact
rationals; timestamps, dates and sessions as integers; dictionaries as
association lists that preserve insertion order (matching Python dict /
OrderedDict semantics).
-/

namespace Ziplime

/-- Association-list lookup (Python `dict.__getitem__` / `dict.get`). -/
def alookup {α β : Type} [DecidableEq α] (k : α) : List (α × β) → Option β
  | [] => none
  | e :: rest => if e.1 = k then some e.2 else alookup k rest

/-- Set `k ↦ v` in an association list and move the entry to the end:
`OrderedDict` assignment followed by `move_to_end(…, last=True)`; for a fresh
key this is ordinary insertion at the end. -/
def setMoveEnd {α β : Type} [DecidableEq α] (l : List (α × β)) (k : α) (v : β) :
    List (α × β) :=
  l.filter (fun e => e.1 ≠ k) ++ [(k, v)]

/-! ## Positions (collaborators of ledger.py) -/

/-- One position as read by `ledger.py`: signed share amount, last sale price,
and the owning asset's `price_multiplier` / future flag (attributes of the
asset, carried here with the position keyed by the asset's `sid`).  Cost
basis is omitted: no verified claim reads it. -/
structure PositionT where
  amount : ℚ
  last_sale_price : ℚ
  price_multiplier : ℚ
  is_future : Bool
deriving Repr, DecidableEq

/-- Modelled from the spec: the position tracker
(`ziplime/finance/domain/position_tracker.py` is not under src/).
§4.D: `positions: asset → Position`, keyed here by asset sid. -/
structure PositionTracker where
  positions : List (ℕ × PositionT)
deriving Repr, DecidableEq

/-- Modelled from the spec (§3, §4.D): a position's contribution to
`positions_value` — market value for equities, zero for cash-settled
futures. -/
def positionValue (p : PositionT) : ℚ :=
  if p.is_future then 0 else p.amount * p.last_sale_price

/-- Modelled from the spec (§3, §4.D): a position's contribution to
`positions_exposure`, using the asset's `price_multiplier`. -/
def positionExposure (p : PositionT) : ℚ :=
  p.amount * p.last_sale_price * p.price_multiplier

/-- Modelled from the spec: `stats` "computes gross/net exposure and value by
iterating once over positions" (§4.D); net value component. -/
def trackerNetValue (pt : PositionTracker) : ℚ :=
  (pt.positions.map (fun kv => positionValue kv.2)).sum

/-- Modelled from the spec: net exposure component of `stats` (§4.D). -/
def trackerNetExposure (pt : PositionTracker) : ℚ :=
  (pt.positions.map (fun kv => positionExposure kv.2)).sum

/-- A processed transaction as `ledger.py` consumes it: order id, asset
identity (sid plus the asset attributes the ledger reads), signed amount,
price and datetime. -/
structure Txn where
  order_id : ℕ
  asset_sid : ℕ
  is_future : Bool
  price_multiplier : ℚ
  amount : ℚ
  price : ℚ
  dt : ℤ
deriving Repr, DecidableEq

/-- Modelled from the spec: `PositionTracker.execute_transaction`
(`position_tracker.py` is not under src/).  §4.D: updates the position's
amount, removes zero-amount positions, and updates the last-sale price from
the transaction's price. -/
def executeTransactionPT (pt : PositionTracker) (t : Txn) : PositionTracker :=
  match alookup t.asset_sid pt.positions with
  | none =>
    if t.amount = 0 then pt
    else { positions := pt.positions ++
            [(t.asset_sid, ⟨t.amount, t.price, t.price_multiplier, t.is_future⟩)] }
  | some p =>
    let amount := p.amount + t.amount
    if amount = 0 then
      { positions := pt.positions.filter (fun e => e.1 ≠ t.asset_sid) }
    else
      { positions := pt.positions.map (fun e =>
          if e.1 = t.asset_sid then
            (t.asset_sid, ⟨amount, t.price, p.price_multiplier, p.is_future⟩)
          else e) }

/-! ## Ledger (ziplime/finance/domain/ledger.py) -/

/-- The `zipline.protocol.Portfolio` fields that `ledger.py` reads and
writes (the positions snapshot is omitted: no verified claim reads it). -/
structure Portfolio where
  cash_flow : ℚ
  cash : ℚ
  portfolio_value : ℚ
  pnl : ℚ
  returns : ℚ
  positions_value : ℚ
  positions_exposure : ℚ
deriving Repr, DecidableEq

/-- An order as recorded in the ledger's order journal (`process_order` only
reads `order.id` and `order.dt`). -/
structure OrderRec where
  id : ℕ
  dt : ℤ
deriving Repr, DecidableEq

/-- The Ledger state (ledger.py lines 76-127): portfolio with its dirty flag,
the saved previous total returns, the position tracker, the by-dt transaction
journal, the order journals, and the futures payout price anchors
(`_payout_last_sale_prices`, stored here as (sid, price_multiplier, price)). -/
structure Ledger where
  portfolio : Portfolio
  dirty_portfolio : Bool
  previous_total_returns : ℚ
  tracker : PositionTracker
  processed_transactions : List (ℤ × List Txn)
  orders_by_id : List (ℕ × OrderRec)
  orders_by_modified : List (ℤ × List (ℕ × OrderRec))
  payout_last_sale_prices : List (ℕ × ℚ × ℚ)
deriving Repr, DecidableEq

/-- Ledger.__init__ (ledger.py:76-127) restricted to the embedded fields:
a fresh portfolio holds `capital_base` in both `cash` and `portfolio_value`
with zero returns, pnl and cash flow; all journals empty. -/
def initLedger (capital_base : ℚ) : Ledger :=
  { portfolio := { cash_flow := 0, cash := capital_base,
                   portfolio_value := capital_base, pnl := 0, returns := 0,
                   positions_value := 0, positions_exposure := 0 },
    dirty_portfolio := false,
    previous_total_returns := 0,
    tracker := { positions := [] },
    processed_transactions := [],
    orders_by_id := [],
    orders_by_modified := [],
    payout_last_sale_prices := [] }

/-- Ledger._calculate_payout (ledger.py:180-182). -/
def calculatePayout (multiplier amount old_price price : ℚ) : ℚ :=
  (price - old_price) * multiplier * amount

/-- Ledger._cash_flow (ledger.py:184-188): marks the portfolio dirty and adds
`amount` to both `cash_flow` and `cash`. -/
def cashFlow (l : Ledger) (amount : ℚ) : Ledger :=
  { l with dirty_portfolio := true,
           portfolio := { l.portfolio with
             cash_flow := l.portfolio.cash_flow + amount,
             cash := l.portfolio.cash + amount } }

/-- Ledger._get_payout_total (ledger.py:388-404): sums the mark-to-market
payout over `_payout_last_sale_prices`, updating each stored anchor price to
the position's current last sale price.  The source indexes
`positions[asset]` directly (the key is always present when this runs); a
missing key is given a zero position to keep the function total. -/
def getPayoutTotal (positions : List (ℕ × PositionT)) :
    List (ℕ × ℚ × ℚ) → ℚ × List (ℕ × ℚ × ℚ)
  | [] => (0, [])
  | (sid, mult, old) :: rest =>
    let pos := (alookup sid positions).getD ⟨0, 0, mult, true⟩
    let r := getPayoutTotal positions rest
    (calculatePayout mult pos.amount old pos.last_sale_price + r.1,
     (sid, mult, pos.last_sale_price) :: r.2)

/-- The per-update returns contribution of Ledger.update_portfolio
(ledger.py:426-430): `pnl / start_value` guarded by `start_value != 0`,
otherwise `0.0`, making the update total with no division by zero. -/
def returnsContribution (start_value pnl : ℚ) : ℚ :=
  if start_value ≠ 0 then pnl / start_value else 0

/-- Ledger.update_portfolio (ledger.py:406-436): no-op when the portfolio is
clean; otherwise refreshes positions value/exposure, books the futures payout
through `_cash_flow`, recomputes `portfolio_value = cash + positions_value`,
accumulates pnl and compounds returns, then clears the dirty flag. -/
def updatePortfolio (l : Ledger) : Ledger :=
  if ¬ l.dirty_portfolio then l
  else
    let position_value := trackerNetValue l.tracker
    let payout := getPayoutTotal l.tracker.positions l.payout_last_sale_prices
    let l1 := cashFlow
      { l with payout_last_sale_prices := payout.2,
               portfolio := { l.portfolio with
                 positions_value := position_value,
                 positions_exposure := trackerNetExposure l.tracker } }
      payout.1
    let start_value := l1.portfolio.portfolio_value
    let end_value := l1.portfolio.cash + position_value
    let pnl := end_value - start_value
    { l1 with
      dirty_portfolio := false,
      portfolio := { l1.portfolio with
        portfolio_value := end_value,
        pnl := l1.portfolio.pnl + pnl,
        returns := (1 + l1.portfolio.returns) *
          (1 + returnsContribution start_value pnl) - 1 } }

/-- The `Ledger.portfolio` property (ledger.py:438-448): forces
`update_portfolio` and returns the portfolio. -/
def ledgerPortfolio (l : Ledger) : Portfolio :=
  (updatePortfolio l).portfolio

/-- Ledger.todays_returns (ledger.py:129-133): recomputed from the live
portfolio (through the `portfolio` property) and the saved previous total
returns on every access. -/
def todaysReturns (l : Ledger) : ℚ :=
  ((ledgerPortfolio l).returns + 1) / (l.previous_total_returns + 1) - 1

/-- Ledger.start_of_session (ledger.py:147-156): clears the processed
transaction and order journals and saves the portfolio's total returns
(reading `self.portfolio` forces `update_portfolio`) as
`_previous_total_returns`. -/
def startOfSession (l : Ledger) : Ledger :=
  let lu := updatePortfolio l
  { lu with
    processed_transactions := [],
    orders_by_modified := [],
    orders_by_id := [],
    previous_total_returns := lu.portfolio.returns }

/-- Ledger.capital_change (ledger.py:329-335): forces `update_portfolio`,
then adjusts `portfolio_value` and `cash` by the change amount directly,
leaving the dirty flag clear ("we update the cash and total value so this is
not dirty"). -/
def capitalChange (l : Ledger) (change_amount : ℚ) : Ledger :=
  let lu := updatePortfolio l
  { lu with portfolio := { lu.portfolio with
      portfolio_value := lu.portfolio.portfolio_value + change_amount,
      cash := lu.portfolio.cash + change_amount } }

/-- The journal insertion of Ledger.process_transaction (ledger.py:227-234):
append the transaction dict to the bucket of its dt, or create a new bucket
at the end. -/
def recordTransaction (j : List (ℤ × List Txn)) (t : Txn) : List (ℤ × List Txn) :=
  match j with
  | [] => [(t.dt, [t])]
  | (d, ts) :: rest =>
    if d = t.dt then (d, ts ++ [t]) :: rest
    else (d, ts) :: recordTransaction rest t

/-- Update the stored anchor price for `sid` in `_payout_last_sale_prices`
(Python `self._payout_last_sale_prices[asset] = price` on a present key). -/
def setPayoutPrice (l : List (ℕ × ℚ × ℚ)) (sid : ℕ) (mult price : ℚ) :
    List (ℕ × ℚ × ℚ) :=
  if (alookup sid l).isSome then
    l.map (fun e => if e.1 = sid then (sid, e.2.1, price) else e)
  else l ++ [(sid, mult, price)]

/-- Ledger.process_transaction (ledger.py:190-234): for futures, either seed
the payout anchor (first sight of the asset) or book the mark-to-market
payout and update/delete the anchor; for other assets book
`-(price * amount)`; then hand the transaction to the position tracker and
append it to the by-dt journal. -/
def processTransaction (l : Ledger) (t : Txn) : Ledger :=
  let l1 :=
    if t.is_future then
      match alookup t.asset_sid l.payout_last_sale_prices with
      | none =>
        { l with payout_last_sale_prices :=
            l.payout_last_sale_prices ++ [(t.asset_sid, t.price_multiplier, t.price)] }
      | some mp =>
        let pos := (alookup t.asset_sid l.tracker.positions).getD
          ⟨0, 0, t.price_multiplier, true⟩
        let lc := cashFlow l
          (calculatePayout t.price_multiplier pos.amount mp.2 t.price)
        if pos.amount + t.amount = 0 then
          { lc with payout_last_sale_prices :=
              lc.payout_last_sale_prices.filter (fun e => e.1 ≠ t.asset_sid) }
        else
          let np := setPayoutPrice lc.payout_last_sale_prices t.asset_sid
            t.price_multiplier t.price
          { lc with payout_last_sale_prices := np }
    else cashFlow l (-(t.price * t.amount))
  { l1 with
    tracker := executeTransactionPT l1.tracker t,
    processed_transactions := recordTransaction l1.processed_transactions t }

/-- The `_orders_by_modified` insertion of Ledger.process_order
(ledger.py:256-268): append a fresh singleton bucket for a new dt, or set the
order in the existing bucket and move it to the end. -/
def recordOrder (j : List (ℤ × List (ℕ × OrderRec))) (o : OrderRec) :
    List (ℤ × List (ℕ × OrderRec)) :=
  match j with
  | [] => [(o.dt, [(o.id, o)])]
  | (d, os) :: rest =>
    if d = o.dt then (d, setMoveEnd os o.id o) :: rest
    else (d, os) :: recordOrder rest o

/-- Ledger.process_order (ledger.py:248-270): records the order in
`_orders_by_modified` (keyed by dt) and in `_orders_by_id`, moving it to the
end of `_orders_by_id` in all cases. -/
def processOrder (l : Ledger) (o : OrderRec) : Ledger :=
  { l with
    orders_by_modified := recordOrder l.orders_by_modified o,
    orders_by_id := setMoveEnd l.orders_by_id o.id o }

/-- Ledger.transactions (ledger.py:337-361): with `dt=None`, flatten the
by-day journal; otherwise the bucket for that dt (empty if absent). -/
def transactionsOf (l : Ledger) (dt : Option ℤ) : List Txn :=
  match dt with
  | none => (l.processed_transactions.map (fun e => e.2)).flatten
  | some d => (alookup d l.processed_transactions).getD []

/-- Ledger.orders (ledger.py:363-382): with `dt=None`, the values of
`_orders_by_id` in order; otherwise the bucket of `_orders_by_modified` for
that dt. -/
def ordersOf (l : Ledger) (dt : Option ℤ) : List OrderRec :=
  match dt with
  | none => l.orders_by_id.map (fun e => e.2)
  | some d => ((alookup d l.orders_by_modified).getD []).map (fun e => e.2)

/-- One ledger-mutating operation the simulation driver performs between two
session boundaries: process a transaction, record an order, or apply a
capital change. -/
inductive LedgerOp
  | tx (t : Txn)
  | ord (o : OrderRec)
  | capital (amount : ℚ)
deriving Repr, DecidableEq

/-- Apply one ledger operation. -/
def applyOp (l : Ledger) : LedgerOp → Ledger
  | .tx t => processTransaction l t
  | .ord o => processOrder l o
  | .capital a => capitalChange l a

/-- Apply a sequence of ledger operations in order. -/
def applyOps (l : Ledger) (ops : List LedgerOp) : Ledger :=
  ops.foldl applyOp l

/-! ## No-slippage model (ziplime/finance/slippage/no_slippage.py) -/

/-- The order fields the slippage contract talks about: total signed amount
and the signed amount filled so far. -/
structure SlOrder where
  amount : ℤ
  filled : ℤ
deriving Repr, DecidableEq

/-- Modelled from the spec: an order's remaining unfilled amount (§3: "each
transaction decrements the order's remaining amount"; the Order class itself
is not under src/). -/
def orderRemaining (o : SlOrder) : ℤ :=
  o.amount - o.filled

/-- NoSlippage.process_order (no_slippage.py:13-18): returns the bar's
current close as the fill price together with the order's `amount` field. -/
def noSlippageProcessOrder (bar_close : ℚ) (o : SlOrder) : ℚ × ℤ :=
  (bar_close, o.amount)

/-! ## Simulation clock construction (ziplime/algorithm.py) -/

/-- The per-session inputs `_create_clock` reads: the session (midnight)
label, the session's entry of the calendar's `first_minutes` series, and its
close, all as minute timestamps. -/
structure SessionSpec where
  midnight : ℤ
  first_minute : ℤ
  close : ℤ
deriving Repr, DecidableEq

/-- The SimulationClock constructor arguments assembled by
TradingAlgorithm._create_clock (algorithm.py:377-395). -/
structure SimulationClock where
  sessions : List ℤ
  market_opens : List ℤ
  market_closes : List ℤ
  before_trading_start_minutes : List ℤ
deriving Repr, DecidableEq

/-- TradingAlgorithm._create_clock (algorithm.py:377-395): `market_opens` is
the calendar's `first_minutes` over the sessions and
`before_trading_start_minutes = market_opens - timedelta(minutes=46)`
(algorithm.py:386). -/
def createClock (specs : List SessionSpec) : SimulationClock :=
  let market_opens := specs.map (fun s => s.first_minute)
  { sessions := specs.map (fun s => s.midnight),
    market_opens := market_opens,
    market_closes := specs.map (fun s => s.close),
    before_trading_start_minutes := market_opens.map (fun x => x - 46) }

/-- The clock's event kinds (the ziplime/gens/sim_engine constants). -/
inductive ClockEventKind
  | sessionStart
  | beforeTradingStart
  | bar
  | emissionRateEnd
  | sessionEnd
deriving Repr, DecidableEq

/-- Modelled from the spec: the SimulationClock emission stream in daily mode
(`ziplime/gens/sim_engine.py` is not under src/).  §4.C: per session, in
order, `(midnight, SessionStart)`,
`(before_trading_start_minutes[s], BeforeTradingStart)`, one Bar at the
close with its EmissionRateEnd, then `(close, SessionEnd)`. -/
def clockEvents (c : SimulationClock) : List (ℤ × ClockEventKind) :=
  ((c.sessions.zip (c.before_trading_start_minutes.zip c.market_closes)).map
    (fun e =>
      [(e.1, ClockEventKind.sessionStart),
       (e.2.1, ClockEventKind.beforeTradingStart),
       (e.2.2, ClockEventKind.bar),
       (e.2.2, ClockEventKind.emissionRateEnd),
       (e.2.2, ClockEventKind.sessionEnd)])).flatten

/-! ## Tradability checks (ziplime/domain/bar_data.py, ziplime/algorithm.py) -/

/-- The asset attributes the tradability checks consult: start/end dates and
the optional auto-close date, as session day numbers. -/
structure AssetInfo where
  start_date : ℤ
  end_date : ℤ
  auto_close_date : Option ℤ
deriving Repr, DecidableEq

/-- Modelled from the spec: `Asset.is_alive_for_session` (the Asset class is
not under src/); an asset is alive for a session when
`start_date ≤ session ≤ end_date` (§3 invariants and lifetimes). -/
def isAliveForSession (a : AssetInfo) (session : ℤ) : Bool :=
  decide (a.start_date ≤ session) && decide (session ≤ a.end_date)

/-- BarData._can_trade_for_asset (bar_data.py:397-429): restricted assets,
assets not alive for the session, and sessions strictly after the auto-close
date are untradable; in minute mode the asset's exchange must be open at the
checked minute; finally there must be a known last price.  The restriction
check, the exchange-open check and the spot-price lookup are passed in as
the booleans they evaluate to. -/
def canTradeForAsset (restricted : Bool) (a : AssetInfo) (session_label : ℤ)
    (daily_mode : Bool) (exchange_open_at_check : Bool)
    (has_last_price : Bool) : Bool :=
  if restricted then false
  else if !(isAliveForSession a session_label) then false
  else if (match a.auto_close_date with
           | some acd => decide (session_label > acd)
           | none => false) then false
  else if !daily_mode && !exchange_open_at_check then false
  else has_last_price

/-- TradingAlgorithm._can_order_asset (algorithm.py:836-853): ordering is
refused only when the asset has an auto-close date and the session's day is
strictly after `min(end_date, auto_close_date)`. -/
def canOrderAsset (a : AssetInfo) (day : ℤ) : Bool :=
  match a.auto_close_date with
  | some acd => !(decide (day > min a.end_date acd))
  | none => true

/-! ## Benchmark validation (ziplime/sources/benchmark_source.py) -/

/-- The error kinds BenchmarkSource._validate_benchmark raises (names from
the imports of benchmark_source.py; `ziplime/errors.py` is not under src/). -/
inductive BenchmarkError
  | invalidBenchmarkAsset
  | benchmarkAssetNotAvailableTooEarly
  | benchmarkAssetNotAvailableTooLate
deriving Repr, DecidableEq

/-- BenchmarkSource._validate_benchmark (benchmark_source.py:150-177): a
stock dividend in range is rejected with InvalidBenchmarkAsset; an asset
starting after the first session with BenchmarkAssetNotAvailableTooEarly;
one ending before the last session with BenchmarkAssetNotAvailableTooLate.
`stock_dividend_ex_dates` is the data portal's stock-dividend query result
for the range; the source indexes `sessions[0]` and `sessions[-1]` (callers
guarantee nonemptiness), rendered total here with default 0. -/
def validateBenchmark (stock_dividend_ex_dates : List ℤ) (a : AssetInfo)
    (sessions : List ℤ) : Except BenchmarkError Unit :=
  if stock_dividend_ex_dates.length > 0 then
    Except.error BenchmarkError.invalidBenchmarkAsset
  else if a.start_date > sessions.headD 0 then
    Except.error BenchmarkError.benchmarkAssetNotAvailableTooEarly
  else if a.end_date < sessions.getLastD 0 then
    Except.error BenchmarkError.benchmarkAssetNotAvailableTooLate
  else Except.ok ()

/-- The validation step of BenchmarkSource.__init__
(benchmark_source.py:49-57): with nonempty sessions and a benchmark asset,
`_validate_benchmark` runs before any series is computed, so a validation
error aborts construction before the clock starts. -/
def benchmarkSourceValidateOnInit (stock_dividend_ex_dates : List ℤ)
    (benchmark_asset : Option AssetInfo) (sessions : List ℤ) :
    Except BenchmarkError Unit :=
  if sessions.length = 0 then Except.ok ()
  else
    match benchmark_asset with
    | some a => validateBenchmark stock_dividend_ex_dates a sessions
    | none => Except.ok ()

/-! ## Order cancellation (ziplime/algorithm.py) -/

/-- Order statuses (spec §3; `ziplime/finance/domain/order_status.py` is not
under src/). -/
inductive OrdStatus
  | openOrd
  | filledOrd
  | cancelledOrd
  | rejectedOrd
  | heldOrd
deriving Repr, DecidableEq

/-- An order as `cancel_order` touches it. -/
structure ExOrder where
  id : ℕ
  status : OrdStatus
  dt : ℤ
deriving Repr, DecidableEq

/-- Modelled from the spec: `Order.open` (the Order class is not under src/).
§3 lists the statuses with Filled/Cancelled/Rejected terminal, and
algorithm.py's own `hold_order` docstring says Held "is functionally similar
to open": an order is open while its status is Open or Held. -/
def ordIsOpen (o : ExOrder) : Bool :=
  o.status == OrdStatus.openOrd || o.status == OrdStatus.heldOrd

/-- Plain dict assignment `d[k] = v`: update in place when the key exists,
otherwise append at the end. -/
def setAssoc {α β : Type} [DecidableEq α] (l : List (α × β)) (k : α) (v : β) :
    List (α × β) :=
  if (alookup k l).isSome then l.map (fun e => if e.1 = k then (k, v) else e)
  else l ++ [(k, v)]

/-- The state TradingAlgorithm.cancel_order touches: the blotter's orders by
id, the cancel notifications sent to the blotter and to the exchange, and
the algorithm's `new_orders` relay map. -/
structure CancelState where
  blotter_orders : List (ℕ × ExOrder)
  blotter_cancelled : List ℕ
  exchange_cancelled : List ℕ
  new_orders : List (ℕ × ExOrder)
deriving Repr, DecidableEq

/-- TradingAlgorithm.cancel_order (algorithm.py:1684-1706): look the order up
in the blotter; return immediately when it is absent or not open; otherwise
cancel it, stamp `dt`, notify the blotter and the exchange, and update
`new_orders` according to `relay_status`. -/
def cancelOrder (s : CancelState) (order_id : ℕ) (relay_status : Bool)
    (now : ℤ) : CancelState :=
  match alookup order_id s.blotter_orders with
  | none => s
  | some o =>
    if !(ordIsOpen o) then s
    else
      let oc : ExOrder := { o with status := OrdStatus.cancelledOrd, dt := now }
      { blotter_orders := setAssoc s.blotter_orders order_id oc,
        blotter_cancelled := s.blotter_cancelled ++ [order_id],
        exchange_cancelled := s.exchange_cancelled ++ [order_id],
        new_orders :=
          if relay_status then setAssoc s.new_orders order_id oc
          else s.new_orders.filter (fun e => e.1 ≠ order_id) }

/-! ## Driver per-bar ordering (ziplime/gens/tradesimulation.py) -/

/-- The blotter state the driver's per-bar step reads and writes: open order
ids in insertion order, the drained new-order relay list, and the fresh-id
counter (spec §4.G; `blotter.py` is not under src/). -/
structure BlotterS where
  open_orders : List ℕ
  new_orders : List ℕ
  next_id : ℕ
deriving Repr, DecidableEq

/-- The blotter a simulation starts from: no orders. -/
def initBlotter : BlotterS :=
  { open_orders := [], new_orders := [], next_id := 0 }

/-- Modelled from the spec: `blotter.order` (§4.G): construct an Order with a
fresh id and insert it into `open_orders` (insertion order preserved) and
`new_orders`. -/
def placeOrder (b : BlotterS) : BlotterS × ℕ :=
  ({ open_orders := b.open_orders ++ [b.next_id],
     new_orders := b.new_orders ++ [b.next_id],
     next_id := b.next_id + 1 }, b.next_id)

/-- Place `n` orders in a row (the strategy's order calls during one
`handle_data`), returning the ids placed. -/
def placeOrders : ℕ → BlotterS → BlotterS × List ℕ
  | 0, b => (b, [])
  | n + 1, b =>
    let r := placeOrder b
    let rr := placeOrders n r.1
    (rr.1, r.2 :: rr.2)

/-- Modelled from the spec: `blotter.get_transactions` (§4.G): consults the
slippage model for each currently open order, in insertion order; `fills`
says which consulted orders fill completely this bar, and those are the
closed orders returned.  The consulted ids are returned for the record. -/
def getTransactions (fills : ℕ → Bool) (b : BlotterS) : List ℕ × List ℕ :=
  (b.open_orders, b.open_orders.filter fills)

/-- Modelled from the spec: `blotter.prune_orders` (§4.G): removes the closed
orders from `open_orders`. -/
def pruneOrders (closed : List ℕ) (b : BlotterS) : BlotterS :=
  { b with open_orders := b.open_orders.filter (fun i => !(closed.contains i)) }

/-- What one bar records: the order ids the blotter's matching step consulted
and the ids of orders placed by `handle_data`. -/
structure BarRecord where
  consulted : List ℕ
  placed : List ℕ
deriving Repr, DecidableEq

/-- One `every_bar` step of AlgorithmSimulator.transform
(tradesimulation.py:112-156): `get_transactions` matches against the open
orders and the closed ones are pruned, then `handle_data` runs and places
the strategy's orders (`strategy bar` many), then `new_orders` is drained. -/
def everyBar (fills : ℕ → ℕ → Bool) (strategy : ℕ → ℕ) (bar : ℕ)
    (b : BlotterS) : BlotterS × BarRecord :=
  let m := getTransactions (fills bar) b
  let b1 := pruneOrders m.2 b
  let p := placeOrders (strategy bar) b1
  ({ p.1 with new_orders := [] }, { consulted := m.1, placed := p.2 })

/-- Run the driver's bar loop from bar `t0` for `fuel` bars, returning the
per-bar records in order. -/
def runBars (fills : ℕ → ℕ → Bool) (strategy : ℕ → ℕ) :
    ℕ → ℕ → BlotterS → List BarRecord
  | _, 0, _ => []
  | t0, fuel + 1, b =>
    let r := everyBar fills strategy t0 b
    r.2 :: runBars fills strategy (t0 + 1) fuel r.1

/-! ## Theorems -/

theorem updatePortfolio_not_dirty (l : Ledger) (h : l.dirty_portfolio = false) :
    updatePortfolio l = l := by
  unfold updatePortfolio
  simp [h]

theorem updatePortfolio_dirty_false (l : Ledger) :
    (updatePortfolio l).dirty_portfolio = false := by
  unfold updatePortfolio
  split
  · rename_i h
    simpa using h
  · rfl

theorem updatePortfolio_prev (l : Ledger) :
    (updatePortfolio l).previous_total_returns = l.previous_total_returns := by
  unfold updatePortfolio
  split <;> rfl

theorem updatePortfolio_journals (l : Ledger) :
    (updatePortfolio l).processed_transactions = l.processed_transactions ∧
    (updatePortfolio l).orders_by_id = l.orders_by_id ∧
    (updatePortfolio l).orders_by_modified = l.orders_by_modified := by
  unfold updatePortfolio
  split <;> exact ⟨rfl, rfl, rfl⟩

/-- C1: `todays_returns` is the returns-space ratio
`(portfolio.returns + 1) / (previous_total_returns + 1) - 1`, where
`previous_total_returns` is the portfolio's cumulative returns saved by the
most recent `start_of_session` and left untouched by every intra-session
operation; it is recomputed from the live portfolio on each access, not
stored. -/
theorem c1_todays_returns (l : Ledger) :
    todaysReturns l =
      ((ledgerPortfolio l).returns + 1) / (l.previous_total_returns + 1) - 1 ∧
    (startOfSession l).previous_total_returns = (ledgerPortfolio l).returns ∧
    ∀ op : LedgerOp,
      (applyOp l op).previous_total_returns = l.previous_total_returns := by
  refine ⟨rfl, rfl, ?_⟩
  intro op
  cases op with
  | tx t =>
    show (processTransaction l t).previous_total_returns = _
    unfold processTransaction
    split
    · split
      · rfl
      · dsimp only
        split <;> rfl
    · rfl
  | ord o => rfl
  | capital a =>
    show (capitalChange l a).previous_total_returns = _
    unfold capitalChange
    exact updatePortfolio_prev l

/-- C2: `capital_change(amount)` adjusts both `portfolio_value` and `cash` by
exactly `amount`, leaves `cash_flow` unchanged, and leaves the value of
`todays_returns` unchanged (observed through the `portfolio` property, which
forces `update_portfolio` on both sides). -/
theorem c2_capital_change (l : Ledger) (a : ℚ) :
    (ledgerPortfolio (capitalChange l a)).portfolio_value =
      (ledgerPortfolio l).portfolio_value + a ∧
    (ledgerPortfolio (capitalChange l a)).cash = (ledgerPortfolio l).cash + a ∧
    (ledgerPortfolio (capitalChange l a)).cash_flow =
      (ledgerPortfolio l).cash_flow ∧
    todaysReturns (capitalChange l a) = todaysReturns l := by
  have hclean : (capitalChange l a).dirty_portfolio = false := by
    unfold capitalChange
    exact updatePortfolio_dirty_false l
  have hfix : updatePortfolio (capitalChange l a) = capitalChange l a :=
    updatePortfolio_not_dirty _ hclean
  refine ⟨?_, ?_, ?_, ?_⟩
  · show (updatePortfolio (capitalChange l a)).portfolio.portfolio_value = _
    rw [hfix]
    rfl
  · show (updatePortfolio (capitalChange l a)).portfolio.cash = _
    rw [hfix]
    rfl
  · show (updatePortfolio (capitalChange l a)).portfolio.cash_flow = _
    rw [hfix]
    rfl
  · show ((updatePortfolio (capitalChange l a)).portfolio.returns + 1) /
        ((capitalChange l a).previous_total_returns + 1) - 1 = _
    rw [hfix]
    have hprev : (capitalChange l a).previous_total_returns =
        l.previous_total_returns := by
      unfold capitalChange
      exact updatePortfolio_prev l
    have hret : (capitalChange l a).portfolio.returns =
        (ledgerPortfolio l).returns := rfl
    rw [hprev, hret]
    rfl

/-- C10: `update_portfolio` never divides by zero: the per-update returns
contribution is `pnl / start_value` only under the guard `start_value != 0`
and is `0.0` when the starting portfolio value is zero, so a zero starting
value leaves the cumulative returns unchanged. -/
theorem c10_update_portfolio_total (l : Ledger) (p s : ℚ) (hs : s ≠ 0) :
    (l.portfolio.portfolio_value = 0 →
      (updatePortfolio l).portfolio.returns = l.portfolio.returns) ∧
    returnsContribution 0 p = 0 ∧
    returnsContribution s p = p / s := by
  refine ⟨?_, by simp [returnsContribution], by simp [returnsContribution, hs]⟩
  intro h0
  unfold updatePortfolio
  split
  · rfl
  · show (1 + l.portfolio.returns) *
        (1 + returnsContribution l.portfolio.portfolio_value _) - 1 = _
    rw [h0]
    simp [returnsContribution]

theorem processTransaction_processed (l : Ledger) (t : Txn) :
    (processTransaction l t).processed_transactions =
      recordTransaction l.processed_transactions t := by
  unfold processTransaction
  split
  · split
    · rfl
    · dsimp only
      split <;> rfl
  · rfl

theorem processTransaction_orders_by_id (l : Ledger) (t : Txn) :
    (processTransaction l t).orders_by_id = l.orders_by_id := by
  unfold processTransaction
  split
  · split
    · rfl
    · dsimp only
      split <;> rfl
  · rfl

theorem capitalChange_journals (l : Ledger) (a : ℚ) :
    (capitalChange l a).processed_transactions = l.processed_transactions ∧
    (capitalChange l a).orders_by_id = l.orders_by_id := by
  unfold capitalChange
  exact ⟨(updatePortfolio_journals l).1, (updatePortfolio_journals l).2.1⟩

theorem mem_flatten_recordTransaction (tq t : Txn) (j : List (ℤ × List Txn)) :
    tq ∈ ((recordTransaction j t).map (fun e => e.2)).flatten ↔
      tq ∈ (j.map (fun e => e.2)).flatten ∨ tq = t := by
  induction j with
  | nil => simp [recordTransaction]
  | cons e rest ih =>
    obtain ⟨d, ts⟩ := e
    by_cases h : d = t.dt
    · rw [show recordTransaction ((d, ts) :: rest) t = (d, ts ++ [t]) :: rest from by
        simp [recordTransaction, h]]
      simp only [List.map_cons, List.flatten_cons, List.mem_append,
        List.mem_singleton]
      tauto
    · rw [show recordTransaction ((d, ts) :: rest) t =
          (d, ts) :: recordTransaction rest t from by simp [recordTransaction, h]]
      simp only [List.map_cons, List.flatten_cons, List.mem_append, ih]
      tauto

theorem mem_txNone_applyOp (l : Ledger) (op : LedgerOp) (t : Txn) :
    t ∈ transactionsOf (applyOp l op) none ↔
      t ∈ transactionsOf l none ∨ op = LedgerOp.tx t := by
  cases op with
  | tx t0 =>
    show t ∈ transactionsOf (processTransaction l t0) none ↔ _
    simp only [transactionsOf, processTransaction_processed,
      mem_flatten_recordTransaction, LedgerOp.tx.injEq]
    tauto
  | ord o =>
    show t ∈ transactionsOf (processOrder l o) none ↔ _
    simp [transactionsOf, processOrder]
  | capital a =>
    show t ∈ transactionsOf (capitalChange l a) none ↔ _
    simp [transactionsOf, (capitalChange_journals l a).1]

theorem mem_txNone_applyOps (ops : List LedgerOp) :
    ∀ (l : Ledger) (t : Txn),
      t ∈ transactionsOf (applyOps l ops) none ↔
        t ∈ transactionsOf l none ∨ LedgerOp.tx t ∈ ops := by
  induction ops with
  | nil => simp [applyOps]
  | cons op rest ih =>
    intro l t
    have hstep : applyOps l (op :: rest) = applyOps (applyOp l op) rest := rfl
    rw [hstep, ih, mem_txNone_applyOp, List.mem_cons]
    constructor
    · rintro ((h | h) | h)
      · exact Or.inl h
      · exact Or.inr (Or.inl h.symm)
      · exact Or.inr (Or.inr h)
    · rintro (h | h | h)
      · exact Or.inl (Or.inl h)
      · exact Or.inl (Or.inr h.symm)
      · exact Or.inr h

theorem mem_ordNone_applyOp (l : Ledger) (op : LedgerOp) (o : OrderRec)
    (h : o ∈ ordersOf (applyOp l op) none) :
    o ∈ ordersOf l none ∨ op = LedgerOp.ord o := by
  cases op with
  | tx t0 =>
    refine Or.inl ?_
    have h2 : o ∈ (processTransaction l t0).orders_by_id.map (fun e => e.2) := h
    rw [processTransaction_orders_by_id] at h2
    exact h2
  | ord o0 =>
    have h2 : o ∈ (setMoveEnd l.orders_by_id o0.id o0).map (fun e => e.2) := h
    simp only [setMoveEnd, List.map_append, List.mem_append, List.map_cons,
      List.map_nil, List.mem_singleton] at h2
    rcases h2 with h2 | h2
    · refine Or.inl ?_
      simp only [List.mem_map] at h2
      obtain ⟨e, he, rfl⟩ := h2
      exact List.mem_map_of_mem _ (List.mem_of_mem_filter he)
    · exact Or.inr (by rw [h2])
  | capital a =>
    refine Or.inl ?_
    have h2 : o ∈ (capitalChange l a).orders_by_id.map (fun e => e.2) := h
    rw [(capitalChange_journals l a).2] at h2
    exact h2

theorem mem_ordNone_applyOps (ops : List LedgerOp) :
    ∀ (l : Ledger) (o : OrderRec),
      o ∈ ordersOf (applyOps l ops) none →
        o ∈ ordersOf l none ∨ LedgerOp.ord o ∈ ops := by
  induction ops with
  | nil => simp [applyOps]
  | cons op rest ih =>
    intro l o h
    have hstep : applyOps l (op :: rest) = applyOps (applyOp l op) rest := rfl
    rw [hstep] at h
    rcases ih (applyOp l op) o h with h1 | h1
    · rcases mem_ordNone_applyOp l op o h1 with h2 | h2
      · exact Or.inl h2
      · exact Or.inr (by rw [List.mem_cons]; exact Or.inl h2.symm)
    · exact Or.inr (List.mem_cons_of_mem _ h1)

theorem key_applyOp (l : Ledger) (op : LedgerOp) (k : ℕ)
    (hk : k ∈ l.orders_by_id.map (fun e => e.1)) :
    k ∈ (applyOp l op).orders_by_id.map (fun e => e.1) := by
  cases op with
  | tx t0 =>
    show k ∈ (processTransaction l t0).orders_by_id.map (fun e => e.1)
    rw [processTransaction_orders_by_id]
    exact hk
  | ord o0 =>
    show k ∈ (setMoveEnd l.orders_by_id o0.id o0).map (fun e => e.1)
    by_cases hko : k = o0.id
    · simp [setMoveEnd, hko]
    · simp only [List.mem_map] at hk
      obtain ⟨e, he, rfl⟩ := hk
      simp only [setMoveEnd, List.map_append, List.mem_append]
      refine Or.inl ?_
      exact List.mem_map_of_mem _ (List.mem_filter_of_mem he (by simpa using hko))
  | capital a =>
    show k ∈ (capitalChange l a).orders_by_id.map (fun e => e.1)
    rw [(capitalChange_journals l a).2]
    exact hk

theorem key_applyOps (ops : List LedgerOp) :
    ∀ (l : Ledger) (k : ℕ), k ∈ l.orders_by_id.map (fun e => e.1) →
      k ∈ (applyOps l ops).orders_by_id.map (fun e => e.1) := by
  induction ops with
  | nil => exact fun l k hk => hk
  | cons op rest ih =>
    intro l k hk
    exact ih (applyOp l op) k (key_applyOp l op k hk)

theorem ordid_applyOps (ops : List LedgerOp) :
    ∀ (l : Ledger) (o : OrderRec), LedgerOp.ord o ∈ ops →
      o.id ∈ (applyOps l ops).orders_by_id.map (fun e => e.1) := by
  induction ops with
  | nil => simp
  | cons op rest ih =>
    intro l o hmem
    have hstep : applyOps l (op :: rest) = applyOps (applyOp l op) rest := rfl
    rw [hstep]
    rcases List.mem_cons.mp hmem with h | h
    · refine key_applyOps rest (applyOp l op) o.id ?_
      rw [← h]
      show o.id ∈ (processOrder l o).orders_by_id.map (fun e => e.1)
      simp [processOrder, setMoveEnd]
    · exact ih (applyOp l op) o h

theorem inv_applyOp (l : Ledger) (op : LedgerOp)
    (h : ∀ e ∈ l.orders_by_id, (e : ℕ × OrderRec).2.id = e.1) :
    ∀ e ∈ (applyOp l op).orders_by_id, (e : ℕ × OrderRec).2.id = e.1 := by
  cases op with
  | tx t0 =>
    intro e he
    rw [show (applyOp l (LedgerOp.tx t0)) = processTransaction l t0 from rfl,
      processTransaction_orders_by_id] at he
    exact h e he
  | ord o0 =>
    intro e he
    have he2 : e ∈ setMoveEnd l.orders_by_id o0.id o0 := he
    simp only [setMoveEnd, List.mem_append, List.mem_singleton] at he2
    rcases he2 with he2 | he2
    · exact h e (List.mem_of_mem_filter he2)
    · rw [he2]
  | capital a =>
    intro e he
    rw [show (applyOp l (LedgerOp.capital a)) = capitalChange l a from rfl,
      (capitalChange_journals l a).2] at he
    exact h e he

theorem inv_applyOps (ops : List LedgerOp) :
    ∀ (l : Ledger), (∀ e ∈ l.orders_by_id, (e : ℕ × OrderRec).2.id = e.1) →
      ∀ e ∈ (applyOps l ops).orders_by_id, (e : ℕ × OrderRec).2.id = e.1 := by
  induction ops with
  | nil => exact fun l h => h
  | cons op rest ih =>
    intro l h
    exact ih (applyOp l op) (inv_applyOp l op h)

/-- C9: `start_of_session` clears the journals: immediately after it,
`transactions(dt=None)` and `orders(dt=None)` are empty; and after any
sequence of intra-session operations, the transaction journal holds exactly
the transactions processed since that session start, and the order journal
holds only orders recorded since then (with every recorded order id
present), never entries from earlier sessions. -/
theorem c9_session_journals (l : Ledger) (ops : List LedgerOp) :
    transactionsOf (startOfSession l) none = [] ∧
    ordersOf (startOfSession l) none = [] ∧
    (∀ t : Txn, t ∈ transactionsOf (applyOps (startOfSession l) ops) none ↔
      LedgerOp.tx t ∈ ops) ∧
    (∀ o : OrderRec, o ∈ ordersOf (applyOps (startOfSession l) ops) none →
      LedgerOp.ord o ∈ ops) ∧
    (∀ o : OrderRec, LedgerOp.ord o ∈ ops →
      ∃ oq ∈ ordersOf (applyOps (startOfSession l) ops) none, oq.id = o.id) := by
  refine ⟨rfl, rfl, ?_, ?_, ?_⟩
  · intro t
    rw [mem_txNone_applyOps]
    have hempty : transactionsOf (startOfSession l) none = [] := rfl
    rw [hempty]
    simp
  · intro o h
    rcases mem_ordNone_applyOps ops (startOfSession l) o h with h1 | h1
    · have hempty : ordersOf (startOfSession l) none = [] := rfl
      rw [hempty] at h1
      exact absurd h1 (List.not_mem_nil o)
    · exact h1
  · intro o hmem
    have hkey := ordid_applyOps ops (startOfSession l) o hmem
    have hinv : ∀ e ∈ (applyOps (startOfSession l) ops).orders_by_id,
        (e : ℕ × OrderRec).2.id = e.1 := by
      refine inv_applyOps ops (startOfSession l) ?_
      intro e he
      have : (startOfSession l).orders_by_id = [] := rfl
      rw [this] at he
      exact absurd he (List.not_mem_nil e)
    simp only [List.mem_map] at hkey
    obtain ⟨e, he, heq⟩ := hkey
    exact ⟨e.2, List.mem_map_of_mem _ he, by rw [hinv e he, heq]⟩

/-- Witness for C9 at a concrete ledger and one recorded order. -/
theorem c9_witness :
    LedgerOp.ord ⟨1, 5⟩ ∈ ([LedgerOp.ord ⟨1, 5⟩] : List LedgerOp) ∧
    transactionsOf (startOfSession (initLedger 100)) none = [] :=
  ⟨(c9_session_journals (initLedger 100) [LedgerOp.ord ⟨1, 5⟩]).2.2.2.1 ⟨1, 5⟩
      (by decide),
    (c9_session_journals (initLedger 100) []).1⟩

/-- Witness for C10 at a concrete dirty ledger whose portfolio value is zero. -/
theorem c10_witness :
    (updatePortfolio { initLedger 0 with dirty_portfolio := true }).portfolio.returns
      = ({ initLedger 0 with dirty_portfolio := true } : Ledger).portfolio.returns :=
  (c10_update_portfolio_total { initLedger 0 with dirty_portfolio := true }
    5 2 (by norm_num)).1 rfl

/-- C4 counterexample: for a partially filled order (amount 10, filled 4)
the no-slippage model returns fill amount 10 — the original order amount —
not the remaining 6 asserted by the claim. -/
theorem c4_counterexample :
    (noSlippageProcessOrder 100 ⟨10, 4⟩).2 ≠ orderRemaining ⟨10, 4⟩ ∧
    (noSlippageProcessOrder 100 ⟨10, 4⟩).2 = 10 ∧
    orderRemaining ⟨10, 4⟩ = 6 := by
  refine ⟨by decide, rfl, rfl⟩

/-- C4 (amended): NoSlippage.process_order returns the bar's close as fill
price together with the order's original `amount`, which coincides with the
remaining unfilled amount exactly when nothing has filled yet. -/
theorem c4_no_slippage (c : ℚ) (o : SlOrder) :
    noSlippageProcessOrder c o = (c, o.amount) ∧
    (o.filled = 0 → (noSlippageProcessOrder c o).2 = orderRemaining o) := by
  refine ⟨rfl, ?_⟩
  intro h
  simp [noSlippageProcessOrder, orderRemaining, h]

/-- Witness for C4 at a fresh (unfilled) order. -/
theorem c4_witness :
    (noSlippageProcessOrder 100 ⟨10, 0⟩).2 = orderRemaining ⟨10, 0⟩ :=
  (c4_no_slippage 100 ⟨10, 0⟩).2 rfl

theorem zip_map_triple {α β γ δ : Type} (f : α → β) (g : α → γ) (h : α → δ)
    (l : List α) :
    (l.map f).zip ((l.map g).zip (l.map h)) = l.map (fun x => (f x, g x, h x)) := by
  induction l with
  | nil => rfl
  | cons x rest ih => simp [ih]

theorem clockEvents_createClock (specs : List SessionSpec) :
    clockEvents (createClock specs) =
      (specs.map (fun s =>
        [(s.midnight, ClockEventKind.sessionStart),
         (s.first_minute - 46, ClockEventKind.beforeTradingStart),
         (s.close, ClockEventKind.bar),
         (s.close, ClockEventKind.emissionRateEnd),
         (s.close, ClockEventKind.sessionEnd)])).flatten := by
  unfold clockEvents createClock
  dsimp only
  rw [List.map_map, zip_map_triple, List.map_map]
  rfl

/-- C5 counterexample: for a session whose `first_minutes` entry is minute
570, the clock built by `_create_clock` emits BeforeTradingStart at minute
524 = 570 − 46, not at 570 − 45 as the claim states. -/
theorem c5_counterexample :
    ((570 : ℤ) - 45, ClockEventKind.beforeTradingStart) ∉
      clockEvents (createClock [⟨0, 570, 960⟩]) ∧
    ((570 : ℤ) - 46, ClockEventKind.beforeTradingStart) ∈
      clockEvents (createClock [⟨0, 570, 960⟩]) := by
  rw [clockEvents_createClock]
  decide

/-- C5 (amended): for every session the clock emits BeforeTradingStart at
the session's `first_minutes` entry minus 46 minutes, and every
BeforeTradingStart event it emits carries such a timestamp. -/
theorem c5_before_trading_start (specs : List SessionSpec) :
    (∀ s ∈ specs, (s.first_minute - 46, ClockEventKind.beforeTradingStart) ∈
      clockEvents (createClock specs)) ∧
    ∀ te ∈ clockEvents (createClock specs),
      (te : ℤ × ClockEventKind).2 = ClockEventKind.beforeTradingStart →
        ∃ s ∈ specs, te.1 = s.first_minute - 46 := by
  rw [clockEvents_createClock]
  constructor
  · intro s hs
    simp only [List.mem_flatten, List.mem_map]
    exact ⟨_, ⟨s, hs, rfl⟩, by simp⟩
  · rintro ⟨tt, k⟩ hmem hk
    simp only [List.mem_flatten, List.mem_map] at hmem
    obtain ⟨lst, ⟨s, hs, rfl⟩, hin⟩ := hmem
    simp only at hk
    subst hk
    simp only [List.mem_cons, List.mem_singleton, Prod.mk.injEq] at hin
    rcases hin with ⟨h1, h2⟩ | ⟨h1, h2⟩ | ⟨h1, h2⟩ | ⟨h1, h2⟩ | ⟨h1, h2⟩ | hfalse
    · exact absurd h2 (by decide)
    · exact ⟨s, hs, h1⟩
    · exact absurd h2 (by decide)
    · exact absurd h2 (by decide)
    · exact absurd h2 (by decide)
    · exact absurd hfalse (List.not_mem_nil _)

/-- Witness for C5 (amended) at a concrete one-session clock. -/
theorem c5_witness :
    ((570 : ℤ) - 46, ClockEventKind.beforeTradingStart) ∈
      clockEvents (createClock [⟨0, 570, 960⟩]) :=
  (c5_before_trading_start [⟨0, 570, 960⟩]).1 ⟨0, 570, 960⟩ (by decide)

/-- C6 counterexample: an asset with end_date 10 and auto_close_date d = 10
is tradable on d − 1 = 9 but ALSO still tradable and orderable on session d
itself: `_can_trade_for_asset` rejects only sessions strictly after the
auto-close date and `_can_order_asset` only days strictly after
`min(end_date, auto_close_date)`, contradicting the claim that both refuse
on session d. -/
theorem c6_counterexample :
    canTradeForAsset false ⟨0, 10, some 10⟩ 10 true true true = true ∧
    canOrderAsset ⟨0, 10, some 10⟩ 10 = true ∧
    canTradeForAsset false ⟨0, 10, some 10⟩ 9 true true true = true := by
  refine ⟨by decide, by decide, by decide⟩

/-- C6 (amended): with auto_close_date = d, `can_trade` returns False for
every session strictly after d and True on any session up to and including d
at which the asset is alive, unrestricted and priced (daily mode); ordering
is refused exactly for days strictly after min(end_date, auto_close_date). -/
theorem c6_auto_close (r : Bool) (a : AssetInfo) (s acd : ℤ)
    (dm eo hp : Bool) (hacd : a.auto_close_date = some acd) :
    (s > acd → canTradeForAsset r a s dm eo hp = false) ∧
    (r = false → isAliveForSession a s = true → s ≤ acd → dm = true →
      hp = true → canTradeForAsset r a s dm eo hp = true) ∧
    (canOrderAsset a s = false ↔ s > min a.end_date acd) := by
  refine ⟨?_, ?_, ?_⟩
  · intro hgt
    unfold canTradeForAsset
    rw [hacd]
    by_cases hr : r
    · simp [hr]
    · by_cases hal : isAliveForSession a s
      · simp [hr, hal, hgt]
      · simp [hr, hal]
  · intro hr hal hle hdm hhp
    unfold canTradeForAsset
    rw [hacd, hr, hal, hdm, hhp]
    have hnotgt : ¬ (s > acd) := not_lt.mpr hle
    simp [hnotgt]
  · unfold canOrderAsset
    rw [hacd]
    by_cases hgt : s > min a.end_date acd
    · simp [hgt]
    · simp [hgt]

/-- Witness for C6 (amended) at concrete assets and sessions. -/
theorem c6_witness :
    canTradeForAsset false ⟨0, 10, some 10⟩ 11 true true true = false ∧
    canTradeForAsset false ⟨0, 9, some 10⟩ 9 true true true = true ∧
    (canOrderAsset ⟨0, 10, some 10⟩ 11 = false ↔ (11 : ℤ) > min 10 10) :=
  ⟨(c6_auto_close false ⟨0, 10, some 10⟩ 11 10 true true true rfl).1
      (by decide),
   (c6_auto_close false ⟨0, 9, some 10⟩ 9 10 true true true rfl).2.1 rfl
      (by decide) (by decide) rfl rfl,
   (c6_auto_close false ⟨0, 10, some 10⟩ 11 10 true true true rfl).2.2⟩

/-- C7 counterexample: a benchmark asset that starts after the first session
(start 5, sessions starting at 0), with no stock dividends, fails with
BenchmarkAssetNotAvailableTooEarly — not with InvalidBenchmarkAsset as the
claim states. -/
theorem c7_counterexample :
    validateBenchmark [] ⟨5, 100, none⟩ [0, 1, 2] =
      Except.error BenchmarkError.benchmarkAssetNotAvailableTooEarly ∧
    validateBenchmark [] ⟨5, 100, none⟩ [0, 1, 2] ≠
      Except.error BenchmarkError.invalidBenchmarkAsset := by
  constructor
  · rfl
  · intro h
    rw [show validateBenchmark [] ⟨5, 100, none⟩ [0, 1, 2] =
      Except.error BenchmarkError.benchmarkAssetNotAvailableTooEarly from rfl]
      at h
    simp at h

/-- C7 (amended): the constructor validates the benchmark before the clock
starts and fails with InvalidBenchmarkAsset exactly when a stock dividend
lies in range, with BenchmarkAssetNotAvailableTooEarly when the asset starts
after the first session, and with BenchmarkAssetNotAvailableTooLate when it
ends before the last session; any asset not alive across the full range
yields some construction error. -/
theorem c7_validate_benchmark (divs : List ℤ) (a : AssetInfo)
    (sessions : List ℤ) (hne : sessions ≠ []) :
    benchmarkSourceValidateOnInit divs (some a) sessions =
      validateBenchmark divs a sessions ∧
    (divs ≠ [] → validateBenchmark divs a sessions =
      Except.error BenchmarkError.invalidBenchmarkAsset) ∧
    (divs = [] → a.start_date > sessions.headD 0 →
      validateBenchmark divs a sessions =
        Except.error BenchmarkError.benchmarkAssetNotAvailableTooEarly) ∧
    (divs = [] → a.start_date ≤ sessions.headD 0 →
      a.end_date < sessions.getLastD 0 →
      validateBenchmark divs a sessions =
        Except.error BenchmarkError.benchmarkAssetNotAvailableTooLate) ∧
    ((a.start_date > sessions.headD 0 ∨ a.end_date < sessions.getLastD 0) →
      ∃ e, validateBenchmark divs a sessions = Except.error e) := by
  refine ⟨?_, ?_, ?_, ?_, ?_⟩
  · unfold benchmarkSourceValidateOnInit
    rw [if_neg (by simpa using hne)]
  · intro hd
    unfold validateBenchmark
    rw [if_pos (by simpa [List.length_pos] using hd)]
  · intro hd hstart
    unfold validateBenchmark
    rw [if_neg (by simp [hd]), if_pos hstart]
  · intro hd hstart hend
    unfold validateBenchmark
    rw [if_neg (by simp [hd]), if_neg (not_lt.mpr hstart), if_pos hend]
  · intro halive
    by_cases hd : divs = []
    · unfold validateBenchmark
      rw [if_neg (by simp [hd])]
      by_cases hstart : a.start_date > sessions.headD 0
      · exact ⟨_, by rw [if_pos hstart]⟩
      · have hend : a.end_date < sessions.getLastD 0 := by
          rcases halive with h | h
          · exact absurd h hstart
          · exact h
        exact ⟨_, by rw [if_neg hstart, if_pos hend]⟩
    · refine ⟨BenchmarkError.invalidBenchmarkAsset, ?_⟩
      unfold validateBenchmark
      rw [if_pos (by simpa [List.length_pos] using hd)]

/-- Witness for C7 (amended): a stock dividend in range yields
InvalidBenchmarkAsset. -/
theorem c7_witness :
    validateBenchmark [3] ⟨0, 100, none⟩ [0, 1] =
      Except.error BenchmarkError.invalidBenchmarkAsset :=
  (c7_validate_benchmark [3] ⟨0, 100, none⟩ [0, 1] (by decide)).2.1
    (by decide)

/-- C8: cancel_order is a no-op on absent or terminal orders: when the order
id does not resolve, or resolves to an order whose status is Filled,
Cancelled or Rejected, the whole state — orders, blotter notifications,
exchange notifications and the new-order relay — is returned unchanged, so
cancelling an already-cancelled order is a no-op. -/
theorem c8_cancel_idempotent (s : CancelState) (oid : ℕ) (relay : Bool)
    (now : ℤ)
    (h : alookup oid s.blotter_orders = none ∨
      ∃ o : ExOrder, alookup oid s.blotter_orders = some o ∧
        (o.status = OrdStatus.filledOrd ∨ o.status = OrdStatus.cancelledOrd ∨
          o.status = OrdStatus.rejectedOrd)) :
    cancelOrder s oid relay now = s := by
  unfold cancelOrder
  rcases h with h | ⟨o, ho, hst⟩
  · rw [h]
  · rw [ho]
    have hopen : ordIsOpen o = false := by
      rcases hst with h1 | h1 | h1 <;> simp [ordIsOpen, h1]
    simp [hopen]

/-- Witness for C8: cancelling an already-cancelled order leaves the state
unchanged. -/
theorem c8_witness :
    cancelOrder ⟨[(1, ⟨1, OrdStatus.cancelledOrd, 0⟩)], [], [], []⟩ 1 true 5 =
      ⟨[(1, ⟨1, OrdStatus.cancelledOrd, 0⟩)], [], [], []⟩ :=
  c8_cancel_idempotent ⟨[(1, ⟨1, OrdStatus.cancelledOrd, 0⟩)], [], [], []⟩ 1
    true 5
    (Or.inr ⟨⟨1, OrdStatus.cancelledOrd, 0⟩, rfl, Or.inr (Or.inl rfl)⟩)

theorem placeOrders_next_id (n : ℕ) :
    ∀ b : BlotterS, (placeOrders n b).1.next_id = b.next_id + n := by
  induction n with
  | zero => intro b; rfl
  | succ n ih =>
    intro b
    show (placeOrders n (placeOrder b).1).1.next_id = _
    rw [ih]
    show b.next_id + 1 + n = b.next_id + (n + 1)
    omega

theorem placeOrders_open (n : ℕ) :
    ∀ b : BlotterS,
      (placeOrders n b).1.open_orders = b.open_orders ++ (placeOrders n b).2 := by
  induction n with
  | zero => intro b; simp [placeOrders]
  | succ n ih =>
    intro b
    show (placeOrders n (placeOrder b).1).1.open_orders =
      b.open_orders ++ (b.next_id :: (placeOrders n (placeOrder b).1).2)
    rw [ih]
    show (b.open_orders ++ [b.next_id]) ++ _ = _
    simp

theorem placeOrders_ids_ge (n : ℕ) :
    ∀ b : BlotterS, ∀ i ∈ (placeOrders n b).2, b.next_id ≤ i := by
  induction n with
  | zero => intro b i h; exact absurd h (List.not_mem_nil i)
  | succ n ih =>
    intro b i h
    rcases List.mem_cons.mp h with rfl | h2
    · exact Nat.le_refl _
    · have := ih (placeOrder b).1 i h2
      exact Nat.le_of_succ_le this

theorem placeOrders_ids_lt (n : ℕ) :
    ∀ b : BlotterS, ∀ i ∈ (placeOrders n b).2, i < b.next_id + n := by
  induction n with
  | zero => intro b i h; exact absurd h (List.not_mem_nil i)
  | succ n ih =>
    intro b i h
    rcases List.mem_cons.mp h with rfl | h2
    · have h0 : (placeOrder b).2 = b.next_id := rfl
      omega
    · have := ih (placeOrder b).1 i h2
      show i < b.next_id + (n + 1)
      have hn : (placeOrder b).1.next_id = b.next_id + 1 := rfl
      omega

theorem everyBar_inv (fills : ℕ → ℕ → Bool) (strategy : ℕ → ℕ) (bar : ℕ)
    (b : BlotterS) (h : ∀ i ∈ b.open_orders, i < b.next_id) :
    ∀ i ∈ (everyBar fills strategy bar b).1.open_orders,
      i < (everyBar fills strategy bar b).1.next_id := by
  intro i hi
  have hopen : (everyBar fills strategy bar b).1.open_orders =
      (pruneOrders (getTransactions (fills bar) b).2 b).open_orders ++
        (placeOrders (strategy bar) (pruneOrders (getTransactions (fills bar) b).2 b)).2 :=
    placeOrders_open (strategy bar) _
  have hnext : (everyBar fills strategy bar b).1.next_id =
      b.next_id + strategy bar := placeOrders_next_id (strategy bar) _
  rw [hopen] at hi
  rw [hnext]
  rcases List.mem_append.mp hi with h2 | h2
  · have : i ∈ b.open_orders := List.mem_of_mem_filter h2
    have := h i this
    omega
  · have := placeOrders_ids_lt (strategy bar) _ i h2
    exact this

theorem runBars_spec (fills : ℕ → ℕ → Bool) (strategy : ℕ → ℕ) :
    ∀ (t fuel t0 : ℕ) (b : BlotterS),
      (∀ i ∈ b.open_orders, i < b.next_id) →
      t + 1 < fuel →
      ∀ id ∈ ((runBars fills strategy t0 fuel b).getD t ⟨[], []⟩).placed,
        id ∉ ((runBars fills strategy t0 fuel b).getD t ⟨[], []⟩).consulted ∧
        id ∈ ((runBars fills strategy t0 fuel b).getD (t + 1) ⟨[], []⟩).consulted := by
  intro t
  induction t with
  | zero =>
    intro fuel t0 b hinv hf id hid
    obtain ⟨f, rfl⟩ : ∃ f, fuel = f + 2 := ⟨fuel - 2, by omega⟩
    have hrun : runBars fills strategy t0 (f + 2) b =
        (everyBar fills strategy t0 b).2 ::
          runBars fills strategy (t0 + 1) (f + 1)
            (everyBar fills strategy t0 b).1 := rfl
    rw [hrun] at hid
    rw [hrun]
    simp only [List.getD_cons_zero, List.getD_cons_succ] at *
    have hrun2 : runBars fills strategy (t0 + 1) (f + 1)
        (everyBar fills strategy t0 b).1 =
        (everyBar fills strategy (t0 + 1) (everyBar fills strategy t0 b).1).2 ::
          runBars fills strategy (t0 + 2) f
            (everyBar fills strategy (t0 + 1) (everyBar fills strategy t0 b).1).1 := rfl
    rw [hrun2]
    simp only [List.getD_cons_zero]
    constructor
    · have hge : b.next_id ≤ id := by
        have := placeOrders_ids_ge (strategy t0)
          (pruneOrders (getTransactions (fills t0) b).2 b) id hid
        exact this
      intro hmem
      have : id ∈ b.open_orders := hmem
      have := hinv id this
      omega
    · show id ∈ (everyBar fills strategy t0 b).1.open_orders
      have hopen : (everyBar fills strategy t0 b).1.open_orders =
          (pruneOrders (getTransactions (fills t0) b).2 b).open_orders ++
            (placeOrders (strategy t0)
              (pruneOrders (getTransactions (fills t0) b).2 b)).2 :=
        placeOrders_open (strategy t0) _
      rw [hopen]
      exact List.mem_append_right _ hid
  | succ t ih =>
    intro fuel t0 b hinv hf id hid
    obtain ⟨f, rfl⟩ : ∃ f, fuel = f + 1 := ⟨fuel - 1, by omega⟩
    have hrun : runBars fills strategy t0 (f + 1) b =
        (everyBar fills strategy t0 b).2 ::
          runBars fills strategy (t0 + 1) f (everyBar fills strategy t0 b).1 := rfl
    rw [hrun] at hid
    rw [hrun]
    simp only [List.getD_cons_succ] at *
    exact ih f (t0 + 1) (everyBar fills strategy t0 b).1
      (everyBar_inv fills strategy t0 b hinv) (by omega) id hid

/-- C3: within `every_bar`, the blotter's matching step (`get_transactions`)
runs strictly before the strategy's `handle_data`: an order placed during
`handle_data` at bar t is never among the order ids the matcher consulted at
bar t, and it is among the ids consulted at bar t+1 — first eligible for a
fill at the next bar. -/
theorem c3_order_first_eligible_next_bar (fills : ℕ → ℕ → Bool)
    (strategy : ℕ → ℕ) (n t : ℕ) (ht : t + 1 < n) (id : ℕ)
    (hid : id ∈ ((runBars fills strategy 0 n initBlotter).getD t ⟨[], []⟩).placed) :
    id ∉ ((runBars fills strategy 0 n initBlotter).getD t ⟨[], []⟩).consulted ∧
    id ∈ ((runBars fills strategy 0 n initBlotter).getD (t + 1) ⟨[], []⟩).consulted :=
  runBars_spec fills strategy t n 0 initBlotter
    (by intro i hi; exact absurd hi (List.not_mem_nil i)) ht id hid

/-- Witness for C3: with a fill-everything slippage and one order per bar
over three bars, order 0 (placed at bar 0) is not consulted at bar 0 and is
consulted at bar 1. -/
theorem c3_witness :
    (0 : ℕ) ∉ ((runBars (fun _ _ => true) (fun _ => 1) 0 3 initBlotter).getD 0
      ⟨[], []⟩).consulted ∧
    (0 : ℕ) ∈ ((runBars (fun _ _ => true) (fun _ => 1) 0 3 initBlotter).getD 1
      ⟨[], []⟩).consulted :=
  c3_order_first_eligible_next_bar (fun _ _ => true) (fun _ => 1) 3 0
    (by decide) 0 (by decide)

end Ziplime
